import Mathlib

/-!
Shallow embedding of the statistics cache handle
(`statistics/handle/handle.go` of the tinysql repository).

The SQL layer, the schema catalog (infoschema), datum conversion and the
count-min-sketch codec are external collaborators of this file's code; they
are modelled as oracles (function-valued fields of `Storage`, or explicit
function parameters).  Go `int64` values are modelled as `Int`, `uint64`
versions as `Nat`, Go maps as functions `Int → Option α`.  `float64`
correlation values are only ever passed through by the code under study, so
they are carried as an abstract `Corr` value on which no arithmetic is done.
-/

namespace StatsHandle

/-- Errors from the SQL layer / decoders, carried opaquely. -/
abbrev Err := Nat

/-- Encoded byte blobs (cm sketches, encoded bounds), carried opaquely. -/
abbrev Bytes := Nat

/-- Datums (bucket bounds). The code never inspects them, only converts via
oracles, so they are carried opaquely. -/
abbrev Datum := Int

/-- Decoded count-min sketches, carried opaquely. -/
abbrev CMSketch := Nat

/-- Field types, carried opaquely (`types.FieldType`). -/
abbrev FieldType := Nat

/-- `types.NewFieldType(mysql.TypeBlob)`. -/
def typeBlob : FieldType := 0

/-- `float64` correlation values, carried opaquely (pass-through only). -/
abbrev Corr := Int

/-- A Go `map[int64]V`, modelled as a function. -/
abbrev IMap (α : Type) := Int → Option α

def IMap.empty {α : Type} : IMap α := fun _ => none

def IMap.insert {α : Type} (m : IMap α) (k : Int) (v : α) : IMap α :=
  fun q => if q = k then some v else m q

def IMap.erase {α : Type} (m : IMap α) (k : Int) : IMap α :=
  fun q => if q = k then none else m q

/-- One bucket of a histogram; `count` is the cumulative count. -/
structure Bucket where
  count : Int
  repeats : Int
  lower : Datum
  upper : Datum
  deriving Repr, DecidableEq

/-- `statistics.Histogram` (fields the handle code reads or writes). -/
structure Histogram where
  id : Int
  ndv : Int
  nullCount : Int
  lastUpdateVersion : Nat
  tp : FieldType
  buckets : List Bucket
  totColSize : Int
  correlation : Corr
  deriving Repr, DecidableEq

/-- Modelled from the spec: `statistics.NewHistogram` (outside src/) builds a
histogram carrying the given metadata and no buckets; `bucketSize` is only a
capacity hint. -/
def NewHistogram (id ndv nullCount : Int) (version : Nat) (tp : FieldType)
    (_bucketSize : Nat) (totColSize : Int) : Histogram :=
  { id := id, ndv := ndv, nullCount := nullCount, lastUpdateVersion := version,
    tp := tp, buckets := [], totColSize := totColSize, correlation := 0 }

/-- Modelled from the spec: `Histogram.AppendBucket` (outside src/) appends one
bucket holding the running cumulative count. -/
def Histogram.append (hg : Histogram) (lower upper : Datum)
    (totalCount repeats : Int) : Histogram :=
  { hg with buckets :=
      hg.buckets ++ [{ count := totalCount, repeats := repeats,
                       lower := lower, upper := upper }] }

/-- Modelled from the spec: `Histogram.TotalRowCount` (outside src/) is the
not-null count (the last cumulative bucket count) plus the null count. -/
def Histogram.totalRowCount (hg : Histogram) : Int :=
  (match hg.buckets.getLast? with
   | some b => b.count
   | none => 0) + hg.nullCount

/-- `model.ColumnInfo` (fields the handle code reads). -/
structure ColumnInfo where
  id : Int
  fieldType : FieldType
  priKeyFlag : Bool
  deriving Repr, DecidableEq

/-- `model.IndexInfo` (fields the handle code reads). -/
structure IndexInfo where
  id : Int
  deriving Repr, DecidableEq

/-- `model.TableInfo` (fields the handle code reads). -/
structure TableInfo where
  id : Int
  name : String
  pkIsHandle : Bool
  columns : List ColumnInfo
  indices : List IndexInfo

/-- `statistics.Column`: a histogram plus column info, sketch, row count and
the clustered-handle flag. -/
structure Column where
  physicalID : Int
  hist : Histogram
  info : ColumnInfo
  cms : Option CMSketch
  count : Int
  isHandle : Bool

/-- `c.Len()`: number of buckets of the column's histogram. -/
def Column.len (c : Column) : Nat := c.hist.buckets.length

/-- `c.LastUpdateVersion`: the embedded histogram's version. -/
def Column.lastUpdateVersion (c : Column) : Nat := c.hist.lastUpdateVersion

/-- `statistics.Index`. -/
structure Index where
  hist : Histogram
  cms : Option CMSketch
  info : IndexInfo

/-- `statistics.Table` (fields the handle code reads or writes; the HistColl
fields are inlined). -/
structure Table where
  physicalID : Int
  havePhysicalID : Bool
  columns : IMap Column
  indices : IMap Index
  version : Nat
  count : Int
  modifyCount : Int
  name : String
  pseudo : Bool

/-- The published snapshot: `statsCache` of handle.go. -/
structure statsCache where
  tables : IMap Table
  version : Nat

/-- `statsCache.copy`: clone the tables map (maps are modelled functionally,
so the clone is extensionally the same function). -/
def statsCache.copy (sc : statsCache) : statsCache :=
  { tables := fun k => sc.tables k, version := sc.version }

/-- `statsCache.update`: copy-on-write — clone, insert the updated tables,
delete the removed IDs, stamp the new version. -/
def statsCache.update (sc : statsCache) (tables : List Table)
    (deletedIDs : List Int) (newVersion : Nat) : statsCache :=
  let c := sc.copy
  let m := tables.foldl (fun m t => m.insert t.physicalID t) c.tables
  let m := deletedIDs.foldl (fun m id => m.erase id) m
  { tables := m, version := newVersion }

/-- `Handle.updateStatsCache`: under the publish lock, reload the current
snapshot and replace it only when `oldCache.version <= newCache.version`.
Modelled sequentially: the function maps (current, candidate) to the snapshot
installed afterwards. -/
def updateStatsCache (oldCache newCache : statsCache) : statsCache :=
  if oldCache.version ≤ newCache.version then newCache else oldCache

/-- A row of `mysql.stats_meta` as selected by `Update`. -/
structure MetaRow where
  version : Nat
  table_id : Int
  modify_count : Int
  count : Int
  deriving Repr, DecidableEq

/-- A row of `mysql.stats_histograms` as selected by `tableStatsFromStorage`
(the columns the code reads: positions 1,2,3,4,5,6,9). -/
structure HistRow where
  is_index : Int
  hist_id : Int
  distinct_count : Int
  version : Nat
  null_count : Int
  tot_col_size : Int
  correlation : Corr
  deriving Repr, DecidableEq

/-- A row of `mysql.stats_buckets` as selected by `histogramFromStorage`
(`count, repeats, lower_bound, upper_bound`, ordered by `bucket_id`). -/
structure BucketRow where
  count : Int
  repeats : Int
  lower : Datum
  upper : Datum
  deriving Repr, DecidableEq

/-- The external storage / SQL layer, as oracles.  Each field models one of
the catalog queries the handle issues (keyed by the literals interpolated
into the SQL), or one of the external decode steps. -/
structure Storage where
  /-- rows of `stats_histograms` for a `table_id`. -/
  histQ : Int → Except Err (List HistRow)
  /-- rows of `stats_buckets` for `(table_id, is_index, hist_id)`, ordered by
  `bucket_id`. -/
  bucketQ : Int → Int → Int → Except Err (List BucketRow)
  /-- `select sum(count)` over `stats_buckets` for `(table_id, 0, hist_id)`;
  `none` models SQL NULL. -/
  sumQ : Int → Int → Except Err (Option Int)
  /-- `select cm_sketch from stats_histograms` for
  `(table_id, is_index, hist_id)`. -/
  cmQ : Int → Int → Int → Except Err (List Bytes)
  /-- `statistics.DecodeCMSketch`. -/
  decode : Bytes → Except Err CMSketch
  /-- `Datum.ConvertTo` under the UTC statement context, to the given type. -/
  rconv : FieldType → Datum → Except Err Datum

/-- The bucket-append loop of `histogramFromStorage`: accumulate a running
total over the per-bucket delta counts; for non-index data convert the bounds
to the column type first. -/
def histAppendLoop (s : Storage) (isIndex : Int) (tp : FieldType) :
    Int → Histogram → List BucketRow → Except Err Histogram
  | _, hg, [] => .ok hg
  | totalCount, hg, r :: rs =>
    match (if isIndex = 1 then Except.ok (r.lower, r.upper)
           else match s.rconv tp r.lower with
                | .error e => .error e
                | .ok l =>
                  match s.rconv tp r.upper with
                  | .error e => .error e
                  | .ok u => .ok (l, u)) with
    | .error e => .error e
    | .ok (lowerBound, upperBound) =>
      histAppendLoop s isIndex tp (totalCount + r.count)
        (hg.append lowerBound upperBound (totalCount + r.count) r.repeats) rs

/-- `Handle.histogramFromStorage`. -/
def histogramFromStorage (s : Storage) (tableID colID : Int) (tp : FieldType)
    (distinct : Int) (isIndex : Int) (ver : Nat) (nullCount totColSize : Int)
    (corr : Corr) : Except Err Histogram :=
  match s.bucketQ tableID isIndex colID with
  | .error e => .error e
  | .ok rows =>
    let hg := { NewHistogram colID distinct nullCount ver tp rows.length
                  totColSize with correlation := corr }
    histAppendLoop s isIndex tp 0 hg rows

/-- `Handle.cmSketchFromStorage`: empty result is a valid absence, errors
propagate, otherwise decode the blob. -/
def cmSketchFromStorage (s : Storage) (tblID isIndex histID : Int) :
    Except Err (Option CMSketch) :=
  match s.cmQ tblID isIndex histID with
  | .error e => .error e
  | .ok [] => .ok none
  | .ok (b :: _) =>
    match s.decode b with
    | .error e => .error e
    | .ok cms => .ok (some cms)

/-- `Handle.columnCountFromStorage`: `SUM(count)` over the bucket rows, with
SQL NULL read as zero. -/
def columnCountFromStorage (s : Storage) (tableID colID : Int) :
    Except Err Int :=
  match s.sumQ tableID colID with
  | .error e => .error e
  | .ok none => .ok 0
  | .ok (some v) => .ok v

/-- The `notNeedLoad` condition of `columnStatsFromStorage`:
`h.Lease() > 0 && !isHandle && (col == nil || col.Len() == 0 &&
col.LastUpdateVersion < histVer) && !loadAll`. -/
def notNeedLoad (lease : Nat) (isHandle : Bool) (col : Option Column)
    (histVer : Nat) (loadAll : Bool) : Bool :=
  decide (0 < lease) && !isHandle &&
    (match col with
     | none => true
     | some c => decide (c.len = 0) && decide (c.lastUpdateVersion < histVer)) &&
    !loadAll

/-- The column-matching loop body of `columnStatsFromStorage`: compute the
`col` value to install (or `none` when neither the metadata nor the cache
know the column).  `physicalID` is `table.PhysicalID`, `col0` the cached
`table.Columns[histID]`. -/
def columnStatsDecide (lease : Nat) (s : Storage) (row : HistRow)
    (physicalID : Int) (col0 : Option Column) (tableInfo : TableInfo)
    (loadAll : Bool) : Except Err (Option Column) :=
  let histID := row.hist_id
  let distinct := row.distinct_count
  let histVer := row.version
  let nullCount := row.null_count
  let totColSize := row.tot_col_size
  let correlation := row.correlation
  match tableInfo.columns.find? (fun ci => ci.id == histID) with
  | none => .ok col0
  | some colInfo =>
    let isHandle := tableInfo.pkIsHandle && colInfo.priKeyFlag
    if notNeedLoad lease isHandle col0 histVer loadAll then
      match columnCountFromStorage s physicalID histID with
      | .error e => .error e
      | .ok cnt =>
        let hg := { NewHistogram histID distinct nullCount histVer
                      colInfo.fieldType 0 totColSize with
                    correlation := correlation }
        .ok (some { physicalID := physicalID, hist := hg,
                    info := colInfo, cms := none,
                    count := cnt + nullCount,
                    isHandle := tableInfo.pkIsHandle && colInfo.priKeyFlag })
    else if (match col0 with
             | none => true
             | some c => decide (c.lastUpdateVersion < histVer)) || loadAll then
      match histogramFromStorage s physicalID histID colInfo.fieldType
              distinct 0 histVer nullCount totColSize correlation with
      | .error e => .error e
      | .ok hg =>
        match cmSketchFromStorage s physicalID 0 colInfo.id with
        | .error e => .error e
        | .ok cms =>
          .ok (some { physicalID := physicalID, hist := hg,
                      info := colInfo, cms := cms,
                      count := hg.totalRowCount,
                      isHandle := tableInfo.pkIsHandle && colInfo.priKeyFlag })
    else
      match col0 with
      | none => .ok none
      | some c =>
        if c.hist.totColSize ≠ totColSize then
          .ok (some { c with hist := { c.hist with totColSize := totColSize } })
        else .ok (some c)

/-- `Handle.columnStatsFromStorage` (current-version reads): decide the new
column value, install it at `col.ID` when present. -/
def columnStatsFromStorage (lease : Nat) (s : Storage) (row : HistRow)
    (table : Table) (tableInfo : TableInfo) (loadAll : Bool) :
    Except Err Table :=
  match columnStatsDecide lease s row table.physicalID
          (table.columns row.hist_id) tableInfo loadAll with
  | .error e => .error e
  | .ok none => .ok table
  | .ok (some c) => .ok { table with columns := table.columns.insert c.hist.id c }

/-- The index-matching loop body of `indexStatsFromStorage`. -/
def indexStatsDecide (s : Storage) (row : HistRow) (physicalID : Int)
    (idx0 : Option Index) (tableInfo : TableInfo) :
    Except Err (Option Index) :=
  let histID := row.hist_id
  let distinct := row.distinct_count
  let histVer := row.version
  let nullCount := row.null_count
  match tableInfo.indices.find? (fun ii => ii.id == histID) with
  | none => .ok idx0
  | some idxInfo =>
    if (match idx0 with
        | none => true
        | some i => decide (i.hist.lastUpdateVersion < histVer)) then
      match histogramFromStorage s physicalID histID typeBlob distinct
              1 histVer nullCount 0 0 with
      | .error e => .error e
      | .ok hg =>
        match cmSketchFromStorage s physicalID 1 idxInfo.id with
        | .error e => .error e
        | .ok cms => .ok (some { hist := hg, cms := cms, info := idxInfo })
    else .ok idx0

/-- `Handle.indexStatsFromStorage` (current-version reads). -/
def indexStatsFromStorage (s : Storage) (row : HistRow) (table : Table)
    (tableInfo : TableInfo) : Except Err Table :=
  match indexStatsDecide s row table.physicalID (table.indices row.hist_id)
          tableInfo with
  | .error e => .error e
  | .ok none => .ok table
  | .ok (some i) => .ok { table with indices := table.indices.insert row.hist_id i }

/-- The per-row dispatch loop of `tableStatsFromStorage`: index rows
(`is_index > 0`) go to the index decoder, the rest to the column decoder; the
first error aborts the per-table load. -/
def tableStatsRowsLoop (lease : Nat) (s : Storage) (tableInfo : TableInfo)
    (loadAll : Bool) : Table → List HistRow → Except Err (Option Table)
  | table, [] => .ok (some table)
  | table, row :: rest =>
    match (if row.is_index > 0 then indexStatsFromStorage s row table tableInfo
           else columnStatsFromStorage lease s row table tableInfo loadAll) with
    | .error e => .error e
    | .ok t => tableStatsRowsLoop lease s tableInfo loadAll t rest

/-- `Handle.tableStatsFromStorage` (current-version reads, so the
history-snapshot executor is absent).  A failing histogram-catalog query or an
empty catalog both return `ok none` ("check deleted table"). -/
def tableStatsFromStorage (lease : Nat) (cache : statsCache) (s : Storage)
    (tableInfo : TableInfo) (physicalID : Int) (loadAll : Bool) :
    Except Err (Option Table) :=
  let table :=
    match cache.tables physicalID with
    | none =>
      { physicalID := physicalID, havePhysicalID := true,
        columns := IMap.empty, indices := IMap.empty,
        version := 0, count := 0, modifyCount := 0, name := "",
        pseudo := false }
    | some t => { t with pseudo := false }
  match s.histQ physicalID with
  | .error _ => .ok none
  | .ok [] => .ok none
  | .ok rows => tableStatsRowsLoop lease s tableInfo loadAll table rows

/-- Modelled from the spec: `oracle.ComposeTS` (outside src/):
`composeTS(physicalMillis, logical) = (physicalMillis << 18) | logical`. -/
def composeTS (physical logical : Nat) : Nat := (physical <<< 18) ||| logical

/-- `DurationToTS` (handle.go): durations are nanosecond counts;
`d.Nanoseconds() / time.Millisecond` is whole milliseconds. -/
def DurationToTS (d : Nat) : Nat := composeTS (d / 1000000) 0

/-- The look-back offset computed by `Update`: `DurationToTS(3 * h.Lease())`. -/
def updateOffset (lease : Nat) : Nat := DurationToTS (3 * lease)

/-- The query bound computed by `Update`: `lastVersion - offset` when
`oldCache.version >= offset`, else `0`. -/
def updateSince (lease version : Nat) : Nat :=
  if updateOffset lease ≤ version then version - updateOffset lease else 0

def insertByVersion (r : MetaRow) : List MetaRow → List MetaRow
  | [] => [r]
  | x :: xs =>
    if r.version ≤ x.version then r :: x :: xs else x :: insertByVersion r xs

def sortByVersion : List MetaRow → List MetaRow
  | [] => []
  | x :: xs => insertByVersion x (sortByVersion xs)

/-- The `stats_meta` query of `Update`:
`SELECT ... where version > since order by version`. `meta` is the full
contents of the `stats_meta` catalog. -/
def metaQuery (meta : List MetaRow) (since : Nat) : List MetaRow :=
  sortByVersion (meta.filter (fun r => decide (since < r.version)))

/-- Accumulator of `Update`'s row loop. -/
structure UpdAcc where
  tables : List Table
  deletedTableIDs : List Int
  lastVersion : Nat

/-- The body of `Update`'s row loop, for one `stats_meta` row.
`resolve` models `getTableByPhysicalID` against the information schema
(partition resolution included); the qualified name from `getFullTableName`
is modelled by the schema catalog's `TableInfo.name`.  An unresolved ID or a
`nil` table is recorded as deleted; a read error skips the row. -/
def updateStep (lease : Nat) (resolve : Int → Option TableInfo) (s : Storage)
    (cache : statsCache) (acc : UpdAcc) (row : MetaRow) : UpdAcc :=
  let acc1 := { acc with lastVersion := row.version }
  match resolve row.table_id with
  | none =>
    { acc1 with deletedTableIDs := acc1.deletedTableIDs ++ [row.table_id] }
  | some tableInfo =>
    match tableStatsFromStorage lease cache s tableInfo row.table_id false with
    | .error _ => acc1
    | .ok none =>
      { acc1 with deletedTableIDs := acc1.deletedTableIDs ++ [row.table_id] }
    | .ok (some tbl0) =>
      let tbl := { tbl0 with
        version := row.version, count := row.count,
        modifyCount := row.modify_count, name := tableInfo.name }
      { acc1 with tables := acc1.tables ++ [tbl] }

/-- The row loop of `Update`: fold `updateStep` over the scanned rows. -/
def updateLoop (lease : Nat) (resolve : Int → Option TableInfo) (s : Storage)
    (cache : statsCache) (acc : UpdAcc) (rows : List MetaRow) : UpdAcc :=
  rows.foldl (updateStep lease resolve s cache) acc

/-- `Handle.Update`: delta-scan `stats_meta` past the look-back bound, decode
each table, and publish the copy-on-write snapshot. -/
def Update (lease : Nat) (resolve : Int → Option TableInfo) (s : Storage)
    (meta : List MetaRow) (cache : statsCache) : statsCache :=
  let since := updateSince lease cache.version
  let rows := metaQuery meta since
  let acc := updateLoop lease resolve s cache
    { tables := [], deletedTableIDs := [], lastVersion := since } rows
  updateStatsCache cache (cache.update acc.tables acc.deletedTableIDs acc.lastVersion)

/-- Modelled from the spec: `statistics.PseudoTable` (outside src/)
synthesizes default statistics for the table — `Pseudo = true`, and
`HavePhysicalID` is false for pseudo placeholders. -/
def PseudoTable (tblInfo : TableInfo) : Table :=
  { physicalID := tblInfo.id, havePhysicalID := false,
    columns := IMap.empty, indices := IMap.empty,
    version := 0, count := 0, modifyCount := 0, name := "", pseudo := true }

/-- `Handle.GetPartitionStats`: returns the cached entry, or synthesizes a
pseudo table, publishes it at the current version and returns it.  The result
is the returned table together with the snapshot installed afterwards. -/
def GetPartitionStats (cache : statsCache) (tblInfo : TableInfo) (pid : Int) :
    Table × statsCache :=
  match cache.tables pid with
  | some tbl => (tbl, cache)
  | none =>
    let tbl := { PseudoTable tblInfo with physicalID := pid }
    (tbl, updateStatsCache cache (cache.update [tbl] [] cache.version))

/-- `Handle.GetTableStats`. -/
def GetTableStats (cache : statsCache) (tblInfo : TableInfo) :
    Table × statsCache :=
  GetPartitionStats cache tblInfo tblInfo.id

/-- `Handle.LastUpdateVersion`. -/
def LastUpdateVersion (cache : statsCache) : Nat := cache.version

/-- `Handle.SetLastUpdateVersion`: publish a candidate with unchanged tables
and the given version. -/
def SetLastUpdateVersion (cache : statsCache) (version : Nat) : statsCache :=
  updateStatsCache cache (cache.update [] [] version)

/-- State seen by the on-demand loader: the published snapshot plus the
process-wide needed-histogram set (`statistics.HistogramNeededColumns`),
modelled as a list of `(tableID, columnID)` pairs. -/
structure LoaderState where
  cache : statsCache
  needed : List (Int × Int)

/-- `HistogramNeededColumns.Delete`. -/
def neededDelete (col : Int × Int) (l : List (Int × Int)) : List (Int × Int) :=
  l.filter (fun c => decide (c ≠ col))

/-- One iteration of the loop of `LoadNeededHistograms` for a requested
`(tableID, columnID)` pair. -/
def loadStep (s : Storage) (st : LoaderState) (col : Int × Int) :
    Except Err LoaderState :=
  let cache := st.cache
  match cache.tables col.1 with
  | none => .ok st
  | some tbl =>
    match tbl.columns col.2 with
    | none => .ok { st with needed := neededDelete col st.needed }
    | some c =>
      if 0 < c.len then .ok { st with needed := neededDelete col st.needed }
      else
        match histogramFromStorage s col.1 c.hist.id c.info.fieldType
                c.hist.ndv 0 c.lastUpdateVersion c.hist.nullCount
                c.hist.totColSize c.hist.correlation with
        | .error e => .error e
        | .ok hg =>
          match cmSketchFromStorage s col.1 0 col.2 with
          | .error e => .error e
          | .ok cms =>
            let tbl2 := { tbl with
              columns := tbl.columns.insert c.hist.id
                { physicalID := col.1, hist := hg, info := c.info, cms := cms,
                  count := hg.totalRowCount, isHandle := c.isHandle } }
            let cache2 :=
              updateStatsCache cache (cache.update [tbl2] [] cache.version)
            .ok { cache := cache2, needed := neededDelete col st.needed }

/-- `Handle.LoadNeededHistograms`: process the captured set of requested
columns; the first storage error aborts the call. -/
def LoadNeededHistograms (s : Storage) :
    LoaderState → List (Int × Int) → Except Err LoaderState
  | st, [] => .ok st
  | st, c :: rest =>
    match loadStep s st c with
    | .error e => .error e
    | .ok st2 => LoadNeededHistograms s st2 rest

/-- The SQL statements issued by the save path, structurally (the
`fmt.Sprintf` rendering to SQL text is the external serialization). -/
inductive Stmt where
  | begin : Stmt
  | commit : Stmt
  | rollback : Stmt
  | replaceMeta (version : Nat) (tableID count : Int) : Stmt
  | updateMeta (version : Nat) (tableID : Int) : Stmt
  | replaceHistogram (tableID isIndex histID ndv : Int) (version : Nat)
      (nullCount : Int) (data : Bytes) (totColSize : Int)
      (correlation : Corr) : Stmt
  | deleteBuckets (tableID isIndex histID : Int) : Stmt
  | insertBucket (tableID isIndex histID : Int) (bucketID : Nat)
      (count repeats : Int) (lower upper : Datum) : Stmt
  deriving Repr, DecidableEq

/-- The bucket loop of `SaveStatsToStorage`: per-bucket delta counts
(`hg.Buckets[i].Count - hg.Buckets[i-1].Count`, the raw count for `i = 0`),
with the bounds converted to blob (upper first, as in the source).
`conv` models `Datum.ConvertTo(sc, blob)`. -/
def bucketInsertStmts (conv : Datum → Except Err Datum)
    (tableID isIndex histID : Int) :
    Int → Nat → List Bucket → Except Err (List Stmt)
  | _, _, [] => .ok []
  | prevCount, i, b :: bs =>
    match conv b.upper with
    | .error e => .error e
    | .ok upperBound =>
      match conv b.lower with
      | .error e => .error e
      | .ok lowerBound =>
        match bucketInsertStmts conv tableID isIndex histID b.count (i + 1) bs with
        | .error e => .error e
        | .ok rest =>
          .ok (Stmt.insertBucket tableID isIndex histID i (b.count - prevCount)
                 b.repeats lowerBound upperBound :: rest)

/-- The statement-building phase of `SaveStatsToStorage` (everything between
`begin` and `execSQLs`): start-TS read, meta statement choice on the sign of
`count`, sketch encoding, histogram replace, bucket delete, bucket inserts.
`txnTS` models `h.mu.ctx.Txn(true)` + `txn.StartTS()`; `enc` models
`statistics.EncodeCMSketch(cms)`. -/
def buildSaveSqls (txnTS : Except Err Nat) (enc : Except Err Bytes)
    (conv : Datum → Except Err Datum) (tableID count : Int) (isIndex : Int)
    (hg : Histogram) : Except Err (List Stmt) :=
  match txnTS with
  | .error e => .error e
  | .ok version =>
    let metaStmt := if 0 ≤ count then Stmt.replaceMeta version tableID count
                    else Stmt.updateMeta version tableID
    match enc with
    | .error e => .error e
    | .ok data =>
      let histStmt := Stmt.replaceHistogram tableID isIndex hg.id hg.ndv
        version hg.nullCount data hg.totColSize hg.correlation
      let delStmt := Stmt.deleteBuckets tableID isIndex hg.id
      match bucketInsertStmts conv tableID isIndex hg.id 0 0 hg.buckets with
      | .error e => .error e
      | .ok inserts => .ok (metaStmt :: histStmt :: delStmt :: inserts)

/-- `execSQLs`: execute statements in order, stopping at the first failure.
`oracle` models the SQL executor; the result is the list of statements
actually executed and the first error, if any. -/
def execSQLs (oracle : Stmt → Option Err) :
    List Stmt → List Stmt × Option Err
  | [] => ([], none)
  | st :: rest =>
    match oracle st with
    | some e => ([st], some e)
    | none =>
      let (log, r) := execSQLs oracle rest
      (st :: log, r)

/-- `Handle.SaveStatsToStorage`, with `finishTransaction` inlined as the
deferred exit path: commit when no error occurred, rollback otherwise (the
rollback error is logged and dropped, the original error returned).  When
`begin` itself fails the function returns before the deferred handler is
installed.  The result is the trace of executed statements and the returned
error. -/
def SaveStatsToStorage (oracle : Stmt → Option Err) (txnTS : Except Err Nat)
    (enc : Except Err Bytes) (conv : Datum → Except Err Datum)
    (tableID count : Int) (isIndex : Int) (hg : Histogram) :
    List Stmt × Option Err :=
  match oracle Stmt.begin with
  | some e => ([Stmt.begin], some e)
  | none =>
    match buildSaveSqls txnTS enc conv tableID count isIndex hg with
    | .error e => ([Stmt.begin, Stmt.rollback], some e)
    | .ok sqls =>
      let (log, r) := execSQLs oracle sqls
      match r with
      | some e => (Stmt.begin :: log ++ [Stmt.rollback], some e)
      | none => (Stmt.begin :: log ++ [Stmt.commit], oracle Stmt.commit)

/-- A sequence of publications through `updateStatsCache`, starting from an
installed snapshot. -/
def publishAll (init : statsCache) (l : List statsCache) : statsCache :=
  l.foldl updateStatsCache init

theorem version_le_updateStatsCache (old cand : statsCache) :
    old.version ≤ (updateStatsCache old cand).version := by
  unfold updateStatsCache
  split
  · assumption
  · exact Nat.le_refl _

theorem version_le_publishAll (init : statsCache) (l : List statsCache) :
    init.version ≤ (publishAll init l).version := by
  induction l generalizing init with
  | nil => exact Nat.le_refl _
  | cons c cs ih =>
    exact Nat.le_trans (version_le_updateStatsCache init c) (ih _)

/-- C3: snapshot publication is monotone — `updateStatsCache` installs the
candidate exactly when its version is at least the current snapshot's, and
along any sequence of publications the installed version never decreases, so
any later installed snapshot's version is ≥ any earlier one's. -/
theorem updateStatsCache_monotone_publication :
    (∀ old cand : statsCache,
       updateStatsCache old cand = cand ↔ old.version ≤ cand.version) ∧
    (∀ (init : statsCache) (l₁ l₂ : List statsCache),
       (publishAll init l₁).version ≤ (publishAll init (l₁ ++ l₂)).version) := by
  constructor
  · intro old cand
    constructor
    · intro h
      by_contra hn
      have hlt : cand.version < old.version := Nat.lt_of_not_le hn
      have hold : updateStatsCache old cand = old := by
        unfold updateStatsCache
        rw [if_neg hn]
      have heq : old = cand := hold.symm.trans h
      have := congrArg statsCache.version heq
      omega
    · intro h
      unfold updateStatsCache
      rw [if_pos h]
  · intro init l₁ l₂
    unfold publishAll
    rw [List.foldl_append]
    exact version_le_publishAll _ _

/-- C10: publishing a strictly smaller version through
`SetLastUpdateVersion` is rejected by the monotonicity check and the
installed snapshot — tables and version — is returned unchanged. -/
theorem setLastUpdateVersion_lower_noop (cache : statsCache) (v : Nat)
    (h : v < cache.version) : SetLastUpdateVersion cache v = cache := by
  have hv : (cache.update [] [] v).version = v := rfl
  unfold SetLastUpdateVersion updateStatsCache
  rw [if_neg]
  rw [hv]
  omega

/-- Witness for C10: a concrete snapshot at version 5 is left entirely
unchanged by `SetLastUpdateVersion 3`. -/
theorem setLastUpdateVersion_lower_noop_witness :
    3 < (statsCache.mk IMap.empty 5).version ∧
      SetLastUpdateVersion (statsCache.mk IMap.empty 5) 3 =
        statsCache.mk IMap.empty 5 :=
  ⟨by decide, setLastUpdateVersion_lower_noop (statsCache.mk IMap.empty 5) 3
      (by decide)⟩

/-- C9: `GetPartitionStats` on an ID absent from the snapshot synthesizes a
pseudo table, stamps its PhysicalID with the requested ID, publishes it at the
current snapshot version, and returns it; afterwards the snapshot holds that
entry with `Pseudo = true`. -/
theorem getPartitionStats_pseudo_promotion (cache : statsCache)
    (tblInfo : TableInfo) (pid : Int) (h : cache.tables pid = none) :
    (GetPartitionStats cache tblInfo pid).1.pseudo = true ∧
    (GetPartitionStats cache tblInfo pid).1.physicalID = pid ∧
    (GetPartitionStats cache tblInfo pid).2.version = cache.version ∧
    (GetPartitionStats cache tblInfo pid).2.tables pid =
      some (GetPartitionStats cache tblInfo pid).1 := by
  unfold GetPartitionStats
  rw [h]
  refine ⟨rfl, rfl, ?_, ?_⟩
  · simp [updateStatsCache, statsCache.update, statsCache.copy]
  · simp [updateStatsCache, statsCache.update, statsCache.copy, IMap.insert,
      PseudoTable]

/-- Witness for C9: a miss on ID 3 in a concrete snapshot at version 11. -/
theorem getPartitionStats_pseudo_promotion_witness :
    (statsCache.mk IMap.empty 11).tables 3 = none ∧
    ((GetPartitionStats (statsCache.mk IMap.empty 11)
        (TableInfo.mk 4 "t" false [] []) 3).1.pseudo = true ∧
     (GetPartitionStats (statsCache.mk IMap.empty 11)
        (TableInfo.mk 4 "t" false [] []) 3).1.physicalID = 3 ∧
     (GetPartitionStats (statsCache.mk IMap.empty 11)
        (TableInfo.mk 4 "t" false [] []) 3).2.version =
       (statsCache.mk IMap.empty 11).version ∧
     (GetPartitionStats (statsCache.mk IMap.empty 11)
        (TableInfo.mk 4 "t" false [] []) 3).2.tables 3 =
       some (GetPartitionStats (statsCache.mk IMap.empty 11)
        (TableInfo.mk 4 "t" false [] []) 3).1) :=
  ⟨rfl, getPartitionStats_pseudo_promotion (statsCache.mk IMap.empty 11)
      (TableInfo.mk 4 "t" false [] []) 3 rfl⟩

theorem mem_insertByVersion (r x : MetaRow) (l : List MetaRow) :
    r ∈ insertByVersion x l ↔ r = x ∨ r ∈ l := by
  induction l with
  | nil => simp [insertByVersion]
  | cons y ys ih =>
    unfold insertByVersion
    split
    · simp [List.mem_cons]
    · simp only [List.mem_cons, ih]
      tauto

theorem mem_sortByVersion (r : MetaRow) (l : List MetaRow) :
    r ∈ sortByVersion l ↔ r ∈ l := by
  induction l with
  | nil => simp [sortByVersion]
  | cons x xs ih =>
    simp only [sortByVersion, mem_insertByVersion, ih, List.mem_cons]

/-- C6: the look-back window — the offset is
`((3·lease_nanos / 1 000 000) << 18) | 0`, the query bound is
`max(high − offset, 0)` (truncated subtraction), and the scanned
`stats_meta` rows are exactly those with `version` strictly greater than the
bound. -/
theorem update_lookback_window (lease : Nat) (cache : statsCache)
    (meta : List MetaRow) (r : MetaRow) :
    updateOffset lease = ((3 * lease / 1000000) <<< 18) ||| 0 ∧
    updateSince lease cache.version = cache.version - updateOffset lease ∧
    (r ∈ metaQuery meta (updateSince lease cache.version) ↔
      r ∈ meta ∧ updateSince lease cache.version < r.version) := by
  refine ⟨rfl, ?_, ?_⟩
  · unfold updateSince
    split <;> omega
  · simp [metaQuery, mem_sortByVersion, List.mem_filter]

/-- Cold-start scenario S1: table metadata for IDs 7 and 9. -/
def tiSeven : TableInfo :=
  { id := 7, name := "t7", pkIsHandle := false, columns := [], indices := [] }

def tiNine : TableInfo :=
  { id := 9, name := "t9", pkIsHandle := false, columns := [], indices := [] }

def resolveColdStart : Int → Option TableInfo := fun pid =>
  if pid = 7 then some tiSeven else if pid = 9 then some tiNine else none

/-- Storage with an entirely empty histogram catalog. -/
def storageNoHist : Storage :=
  { histQ := fun _ => .ok [], bucketQ := fun _ _ _ => .ok [],
    sumQ := fun _ _ => .ok none, cmQ := fun _ _ _ => .ok [],
    decode := fun b => .ok b, rconv := fun _ d => .ok d }

def metaColdStart : List MetaRow :=
  [{ version := 100, table_id := 7, modify_count := 0, count := 0 },
   { version := 200, table_id := 9, modify_count := 0, count := 0 }]

def emptyCache : statsCache := { tables := IMap.empty, version := 0 }

def coldStartResult : statsCache :=
  Update 0 resolveColdStart storageNoHist metaColdStart emptyCache

/-- C1 counterexample: in the cold-start scenario (stats_meta rows for tables
7 and 9 at versions 100 and 200, no histogram rows), `Update` leaves no entry
at all for table 7 — refuting the claimed `tables[7].Version = 100`: a table
with an empty histogram catalog is treated as deleted. -/
theorem coldStart_table7_absent : coldStartResult.tables 7 = none := rfl

/-- C1 amended: in the cold-start scenario `Update` publishes snapshot
version 200, but both histogram-less tables are recorded as deleted, so the
snapshot contains no entry for ID 7 nor for ID 9. -/
theorem coldStart_deleted_tables :
    coldStartResult.version = 200 ∧ coldStartResult.tables 7 = none ∧
      coldStartResult.tables 9 = none :=
  ⟨rfl, rfl, rfl⟩

/-- A loader state whose snapshot has no entry at all, with one pending
request for `(tableID, columnID) = (1, 1)`. -/
def loaderMissState : LoaderState :=
  { cache := emptyCache, needed := [(1, 1)] }

/-- C8 counterexample: with a snapshot holding no entry for table 1 and a
needed set `[(1, 1)]`, `LoadNeededHistograms` terminates successfully but the
request is still in the needed set — it is not dropped, refuting the claim
that the request is dropped from the needed-histogram set. -/
theorem loadNeeded_missing_table_not_dropped :
    LoadNeededHistograms storageNoHist loaderMissState [(1, 1)] =
      .ok loaderMissState ∧
    (1, 1) ∈ (match LoadNeededHistograms storageNoHist loaderMissState
                      [(1, 1)] with
              | .ok st => st.needed
              | .error _ => []) :=
  ⟨rfl, by decide⟩

/-- C8 amended: for a requested pair whose tableID has no snapshot entry, the
iteration is a no-op — the request is skipped (left in the needed set, state
unchanged) — and processing continues with the remaining pairs. -/
theorem loadNeeded_missing_table_skips (s : Storage) (st : LoaderState)
    (col : Int × Int) (rest : List (Int × Int))
    (h : st.cache.tables col.1 = none) :
    loadStep s st col = .ok st ∧
      LoadNeededHistograms s st (col :: rest) =
        LoadNeededHistograms s st rest := by
  have h1 : loadStep s st col = .ok st := by
    unfold loadStep
    dsimp only
    rw [h]
  refine ⟨h1, ?_⟩
  show (match loadStep s st col with
        | .error e => .error e
        | .ok st2 => LoadNeededHistograms s st2 rest) =
      LoadNeededHistograms s st rest
  rw [h1]

/-- Witness for the amended C8 at a concrete missing table. -/
theorem loadNeeded_missing_table_skips_witness :
    loaderMissState.cache.tables 1 = none ∧
      (loadStep storageNoHist loaderMissState (1, 1) = .ok loaderMissState ∧
       LoadNeededHistograms storageNoHist loaderMissState [(1, 1)] =
         LoadNeededHistograms storageNoHist loaderMissState []) :=
  ⟨rfl, loadNeeded_missing_table_skips storageNoHist loaderMissState (1, 1) []
      rfl⟩

/-- The snapshot invariant that each table sits at the key equal to its own
PhysicalID. -/
def WellKeyed (cache : statsCache) : Prop :=
  ∀ k t, cache.tables k = some t → t.physicalID = k

theorem columnStatsFromStorage_physicalID {lease : Nat} {s : Storage}
    {row : HistRow} {table : Table} {tableInfo : TableInfo} {loadAll : Bool}
    {t2 : Table}
    (h : columnStatsFromStorage lease s row table tableInfo loadAll = .ok t2) :
    t2.physicalID = table.physicalID := by
  unfold columnStatsFromStorage at h
  cases hd : columnStatsDecide lease s row table.physicalID
      (table.columns row.hist_id) tableInfo loadAll with
  | error e => rw [hd] at h; cases h
  | ok oc =>
    rw [hd] at h
    cases oc with
    | none =>
      injection h with h2
      rw [← h2]
    | some c =>
      injection h with h2
      rw [← h2]

theorem indexStatsFromStorage_physicalID {s : Storage} {row : HistRow}
    {table : Table} {tableInfo : TableInfo} {t2 : Table}
    (h : indexStatsFromStorage s row table tableInfo = .ok t2) :
    t2.physicalID = table.physicalID := by
  unfold indexStatsFromStorage at h
  cases hd : indexStatsDecide s row table.physicalID
      (table.indices row.hist_id) tableInfo with
  | error e => rw [hd] at h; cases h
  | ok oi =>
    rw [hd] at h
    cases oi with
    | none =>
      injection h with h2
      rw [← h2]
    | some i =>
      injection h with h2
      rw [← h2]

theorem tableStatsRowsLoop_physicalID {lease : Nat} {s : Storage}
    {tableInfo : TableInfo} {loadAll : Bool} :
    ∀ (rows : List HistRow) (table t2 : Table),
    tableStatsRowsLoop lease s tableInfo loadAll table rows = .ok (some t2) →
    t2.physicalID = table.physicalID := by
  intro rows
  induction rows with
  | nil =>
    intro table t2 h
    injection h with h2
    injection h2 with h3
    rw [← h3]
  | cons row rest ih =>
    intro table t2 h
    unfold tableStatsRowsLoop at h
    cases hd : (if row.is_index > 0 then
                  indexStatsFromStorage s row table tableInfo
                else columnStatsFromStorage lease s row table tableInfo loadAll) with
    | error e => rw [hd] at h; cases h
    | ok t3 =>
      rw [hd] at h
      have h2 := ih t3 t2 h
      have h3 : t3.physicalID = table.physicalID := by
        by_cases hidx : row.is_index > 0
        · rw [if_pos hidx] at hd
          exact indexStatsFromStorage_physicalID hd
        · rw [if_neg hidx] at hd
          exact columnStatsFromStorage_physicalID hd
      rw [h2, h3]

theorem tableStatsFromStorage_physicalID {lease : Nat} {cache : statsCache}
    {s : Storage} {tableInfo : TableInfo} {pid : Int} {loadAll : Bool}
    {t2 : Table} (hw : WellKeyed cache)
    (h : tableStatsFromStorage lease cache s tableInfo pid loadAll =
      .ok (some t2)) : t2.physicalID = pid := by
  unfold tableStatsFromStorage at h
  dsimp only at h
  cases hq : s.histQ pid with
  | error e =>
    rw [hq] at h
    injection h with h2
    exact Option.noConfusion h2
  | ok rows =>
    cases rows with
    | nil =>
      rw [hq] at h
      injection h with h2
      exact Option.noConfusion h2
    | cons r rs =>
      rw [hq] at h
      have h3 := tableStatsRowsLoop_physicalID (r :: rs) _ t2 h
      rw [h3]
      cases hc : cache.tables pid with
      | none => rfl
      | some t => exact hw pid t hc

/-- The table contribution of one `stats_meta` row to the refresh. -/
def rowTables (lease : Nat) (resolve : Int → Option TableInfo) (s : Storage)
    (cache : statsCache) (row : MetaRow) : List Table :=
  match resolve row.table_id with
  | none => []
  | some tableInfo =>
    match tableStatsFromStorage lease cache s tableInfo row.table_id false with
    | .error _ => []
    | .ok none => []
    | .ok (some tbl0) =>
      [{ tbl0 with
         version := row.version, count := row.count,
         modifyCount := row.modify_count, name := tableInfo.name }]

/-- The deleted-ID contribution of one `stats_meta` row to the refresh. -/
def rowDeleted (lease : Nat) (resolve : Int → Option TableInfo) (s : Storage)
    (cache : statsCache) (row : MetaRow) : List Int :=
  match resolve row.table_id with
  | none => [row.table_id]
  | some tableInfo =>
    match tableStatsFromStorage lease cache s tableInfo row.table_id false with
    | .error _ => []
    | .ok none => [row.table_id]
    | .ok (some _) => []

theorem updateStep_decomp (lease : Nat) (resolve : Int → Option TableInfo)
    (s : Storage) (cache : statsCache) (acc : UpdAcc) (row : MetaRow) :
    updateStep lease resolve s cache acc row =
      { tables := acc.tables ++ rowTables lease resolve s cache row,
        deletedTableIDs :=
          acc.deletedTableIDs ++ rowDeleted lease resolve s cache row,
        lastVersion := row.version } := by
  cases hr : resolve row.table_id with
  | none => simp [updateStep, rowTables, rowDeleted, hr]
  | some ti =>
    cases hts : tableStatsFromStorage lease cache s ti row.table_id false with
    | error e => simp [updateStep, rowTables, rowDeleted, hr, hts]
    | ok ot =>
      cases ot with
      | none => simp [updateStep, rowTables, rowDeleted, hr, hts]
      | some t => simp [updateStep, rowTables, rowDeleted, hr, hts]

/-- Concatenated table contributions of a row list. -/
def loopTables (lease : Nat) (resolve : Int → Option TableInfo) (s : Storage)
    (cache : statsCache) : List MetaRow → List Table
  | [] => []
  | row :: rest =>
    rowTables lease resolve s cache row ++
      loopTables lease resolve s cache rest

/-- Concatenated deleted-ID contributions of a row list. -/
def loopDeleted (lease : Nat) (resolve : Int → Option TableInfo) (s : Storage)
    (cache : statsCache) : List MetaRow → List Int
  | [] => []
  | row :: rest =>
    rowDeleted lease resolve s cache row ++
      loopDeleted lease resolve s cache rest

theorem updateLoop_tables (lease : Nat) (resolve : Int → Option TableInfo)
    (s : Storage) (cache : statsCache) :
    ∀ (rows : List MetaRow) (acc : UpdAcc),
    (updateLoop lease resolve s cache acc rows).tables =
      acc.tables ++ loopTables lease resolve s cache rows := by
  intro rows
  induction rows with
  | nil => intro acc; simp [updateLoop, loopTables]
  | cons row rest ih =>
    intro acc
    have e1 : updateLoop lease resolve s cache acc (row :: rest) =
        updateLoop lease resolve s cache
          (updateStep lease resolve s cache acc row) rest := rfl
    rw [e1, ih, updateStep_decomp]
    simp [loopTables, List.append_assoc]

theorem updateLoop_deleted (lease : Nat) (resolve : Int → Option TableInfo)
    (s : Storage) (cache : statsCache) :
    ∀ (rows : List MetaRow) (acc : UpdAcc),
    (updateLoop lease resolve s cache acc rows).deletedTableIDs =
      acc.deletedTableIDs ++ loopDeleted lease resolve s cache rows := by
  intro rows
  induction rows with
  | nil => intro acc; simp [updateLoop, loopDeleted]
  | cons row rest ih =>
    intro acc
    have e1 : updateLoop lease resolve s cache acc (row :: rest) =
        updateLoop lease resolve s cache
          (updateStep lease resolve s cache acc row) rest := rfl
    rw [e1, ih, updateStep_decomp]
    simp [loopDeleted, List.append_assoc]

theorem loopTables_append (lease : Nat) (resolve : Int → Option TableInfo)
    (s : Storage) (cache : statsCache) (l1 l2 : List MetaRow) :
    loopTables lease resolve s cache (l1 ++ l2) =
      loopTables lease resolve s cache l1 ++
        loopTables lease resolve s cache l2 := by
  induction l1 with
  | nil => simp [loopTables]
  | cons row rest ih => simp [loopTables, ih]

theorem loopDeleted_append (lease : Nat) (resolve : Int → Option TableInfo)
    (s : Storage) (cache : statsCache) (l1 l2 : List MetaRow) :
    loopDeleted lease resolve s cache (l1 ++ l2) =
      loopDeleted lease resolve s cache l1 ++
        loopDeleted lease resolve s cache l2 := by
  induction l1 with
  | nil => simp [loopDeleted]
  | cons row rest ih => simp [loopDeleted, ih]

theorem lookup_foldl_insert (key : Int) :
    ∀ (l : List Table) (m : IMap Table), key ∉ l.map Table.physicalID →
    (l.foldl (fun m t => m.insert t.physicalID t) m) key = m key := by
  intro l
  induction l with
  | nil => intro m _; rfl
  | cons t ts ih =>
    intro m h
    simp only [List.map_cons, List.mem_cons, not_or] at h
    rw [List.foldl_cons, ih _ h.2]
    unfold IMap.insert
    rw [if_neg h.1]

theorem lookup_foldl_erase (key : Int) :
    ∀ (l : List Int) (m : IMap Table), key ∉ l →
    (l.foldl (fun m id => m.erase id) m) key = m key := by
  intro l
  induction l with
  | nil => intro m _; rfl
  | cons d ds ih =>
    intro m h
    simp only [List.mem_cons, not_or] at h
    rw [List.foldl_cons, ih _ h.2]
    unfold IMap.erase
    rw [if_neg h.1]

theorem update_preserves_key (cache : statsCache) (tables : List Table)
    (deleted : List Int) (v : Nat) (key : Int)
    (h1 : key ∉ tables.map Table.physicalID) (h2 : key ∉ deleted) :
    (cache.update tables deleted v).tables key = cache.tables key := by
  unfold statsCache.update statsCache.copy
  dsimp only
  rw [lookup_foldl_erase key deleted _ h2, lookup_foldl_insert key tables _ h1]

theorem rowContrib_failing (lease : Nat) (resolve : Int → Option TableInfo)
    (s : Storage) (cache : statsCache) (t0 : Int) (ti : TableInfo) (e : Err)
    (hw : WellKeyed cache) (hres : resolve t0 = some ti)
    (hfail : tableStatsFromStorage lease cache s ti t0 false = .error e)
    (row : MetaRow) :
    t0 ∉ (rowTables lease resolve s cache row).map Table.physicalID ∧
      t0 ∉ rowDeleted lease resolve s cache row := by
  by_cases heq : row.table_id = t0
  · constructor
    · simp [rowTables, heq, hres, hfail]
    · simp [rowDeleted, heq, hres, hfail]
  · cases hr : resolve row.table_id with
    | none =>
      constructor
      · simp [rowTables, hr]
      · simp only [rowDeleted, hr, List.mem_singleton]
        exact fun hx => heq hx.symm
    | some ti2 =>
      cases hts : tableStatsFromStorage lease cache s ti2 row.table_id false with
      | error e2 =>
        constructor
        · simp [rowTables, hr, hts]
        · simp [rowDeleted, hr, hts]
      | ok ot =>
        cases ot with
        | none =>
          constructor
          · simp [rowTables, hr, hts]
          · simp only [rowDeleted, hr, hts, List.mem_singleton]
            exact fun hx => heq hx.symm
        | some tbl0 =>
          have hp : tbl0.physicalID = row.table_id :=
            tableStatsFromStorage_physicalID hw hts
          constructor
          · simp only [rowTables, hr, hts, List.map_cons, List.map_nil,
              List.mem_singleton]
            intro hx
            have hx2 : t0 = tbl0.physicalID := hx
            exact heq ((hx2.trans hp).symm)
          · simp [rowDeleted, hr, hts]

theorem loopContrib_failing (lease : Nat) (resolve : Int → Option TableInfo)
    (s : Storage) (cache : statsCache) (t0 : Int) (ti : TableInfo) (e : Err)
    (hw : WellKeyed cache) (hres : resolve t0 = some ti)
    (hfail : tableStatsFromStorage lease cache s ti t0 false = .error e) :
    ∀ rows : List MetaRow,
    t0 ∉ (loopTables lease resolve s cache rows).map Table.physicalID ∧
      t0 ∉ loopDeleted lease resolve s cache rows := by
  intro rows
  induction rows with
  | nil => constructor <;> simp [loopTables, loopDeleted]
  | cons row rest ih =>
    have hrow := rowContrib_failing lease resolve s cache t0 ti e hw hres
      hfail row
    constructor
    · simp only [loopTables, List.map_append, List.mem_append, not_or]
      exact ⟨hrow.1, ih.1⟩
    · simp only [loopDeleted, List.mem_append, not_or]
      exact ⟨hrow.2, ih.2⟩

/-- C2 amended: during `Update`, a `stats_meta` row whose table-stats load
fails with a decode/read error (`tableStatsFromStorage` returning an error:
bucket, sketch, sum or conversion failures) is skipped — it contributes
nothing to the updated or deleted lists, the loop continues with the
remaining rows, and the table's existing snapshot entry is neither updated
nor removed.  (A failure of the histogram-catalog query itself is instead
treated as a deleted table; see the counterexample.) -/
theorem update_decode_error_row_skipped
    (lease : Nat) (resolve : Int → Option TableInfo) (s : Storage)
    (meta : List MetaRow) (cache : statsCache) (r : MetaRow) (ti : TableInfo)
    (e : Err) (hw : WellKeyed cache) (hres : resolve r.table_id = some ti)
    (hfail : tableStatsFromStorage lease cache s ti r.table_id false =
      .error e) :
    (∀ (pre post : List MetaRow) (acc : UpdAcc),
       (updateLoop lease resolve s cache acc (pre ++ r :: post)).tables =
         (updateLoop lease resolve s cache acc (pre ++ post)).tables ∧
       (updateLoop lease resolve s cache acc
           (pre ++ r :: post)).deletedTableIDs =
         (updateLoop lease resolve s cache acc (pre ++ post)).deletedTableIDs) ∧
    (Update lease resolve s meta cache).tables r.table_id =
      cache.tables r.table_id := by
  have hrowT : rowTables lease resolve s cache r = [] := by
    simp [rowTables, hres, hfail]
  have hrowD : rowDeleted lease resolve s cache r = [] := by
    simp [rowDeleted, hres, hfail]
  constructor
  · intro pre post acc
    constructor
    · rw [updateLoop_tables, updateLoop_tables, loopTables_append,
        loopTables_append]
      have h2 : loopTables lease resolve s cache (r :: post) =
          loopTables lease resolve s cache post := by
        simp [loopTables, hrowT]
      rw [h2]
    · rw [updateLoop_deleted, updateLoop_deleted, loopDeleted_append,
        loopDeleted_append]
      have h2 : loopDeleted lease resolve s cache (r :: post) =
          loopDeleted lease resolve s cache post := by
        simp [loopDeleted, hrowD]
      rw [h2]
  · have habs := loopContrib_failing lease resolve s cache r.table_id ti e hw
      hres hfail (metaQuery meta (updateSince lease cache.version))
    unfold Update
    dsimp only
    unfold updateStatsCache
    split
    · apply update_preserves_key
      · rw [updateLoop_tables]
        simpa using habs.1
      · rw [updateLoop_deleted]
        simpa using habs.2
    · rfl

/-- Table metadata for ID 5 with one column of ID 1. -/
def tiFive : TableInfo :=
  { id := 5, name := "t5", pkIsHandle := false,
    columns := [{ id := 1, fieldType := 0, priKeyFlag := false }],
    indices := [] }

def tableFive : Table :=
  { physicalID := 5, havePhysicalID := true, columns := IMap.empty,
    indices := IMap.empty, version := 1, count := 0, modifyCount := 0,
    name := "t5", pseudo := false }

/-- A snapshot holding `tableFive` at key 5, version 1. -/
def cacheFive : statsCache :=
  { tables := IMap.empty.insert 5 tableFive, version := 1 }

def resolveFive : Int → Option TableInfo := fun pid =>
  if pid = 5 then some tiFive else none

def rowFive : MetaRow :=
  { version := 300, table_id := 5, modify_count := 0, count := 0 }

def metaFive : List MetaRow := [rowFive]

/-- Storage whose histogram-catalog query itself fails. -/
def storageHistErr : Storage :=
  { histQ := fun _ => .error 3, bucketQ := fun _ _ _ => .ok [],
    sumQ := fun _ _ => .ok none, cmQ := fun _ _ _ => .ok [],
    decode := fun b => .ok b, rconv := fun _ d => .ok d }

/-- Storage where the histogram catalog reads fine but the bucket query
fails, so the per-table load ends in a decode error. -/
def storageBucketErr : Storage :=
  { histQ := fun _ => .ok [{ is_index := 0, hist_id := 1,
                             distinct_count := 0, version := 10,
                             null_count := 0, tot_col_size := 0,
                             correlation := 0 }],
    bucketQ := fun _ _ _ => .error 7, sumQ := fun _ _ => .ok none,
    cmQ := fun _ _ _ => .ok [], decode := fun b => .ok b,
    rconv := fun _ d => .ok d }

theorem cacheFive_wellKeyed : WellKeyed cacheFive := by
  intro k t h
  have h2 : (if k = 5 then some tableFive else none) = some t := h
  split at h2
  · rename_i h5
    injection h2 with h3
    rw [← h3, h5]
    rfl
  · exact Option.noConfusion h2

/-- C2 counterexample: when the histogram-catalog query itself fails with a
read error, the row is NOT skipped — `tableStatsFromStorage` returns
`(nil, nil)`, so `Update` records the table as deleted and removes its
existing cache entry from the published snapshot, refuting the claim for
that error class. -/
theorem update_histq_error_removes_entry :
    cacheFive.tables 5 = some tableFive ∧
    (Update 0 resolveFive storageHistErr metaFive cacheFive).tables 5 =
      none :=
  ⟨rfl, rfl⟩

def accNil : UpdAcc := { tables := [], deletedTableIDs := [], lastVersion := 0 }

/-- Witness for the amended C2 at a concrete failing bucket query. -/
theorem update_decode_error_row_skipped_witness :
    cacheFive.tables 5 = some tableFive ∧
    (updateLoop 0 resolveFive storageBucketErr cacheFive accNil
        ([] ++ rowFive :: [])).tables =
      (updateLoop 0 resolveFive storageBucketErr cacheFive accNil
        ([] ++ [])).tables ∧
    (Update 0 resolveFive storageBucketErr metaFive cacheFive).tables
        rowFive.table_id =
      cacheFive.tables rowFive.table_id :=
  ⟨rfl,
   ((update_decode_error_row_skipped 0 resolveFive storageBucketErr metaFive
      cacheFive rowFive tiFive 7 cacheFive_wellKeyed rfl rfl).1 [] []
      accNil).1,
   (update_decode_error_row_skipped 0 resolveFive storageBucketErr metaFive
      cacheFive rowFive tiFive 7 cacheFive_wellKeyed rfl rfl).2⟩

/-- The per-bucket delta sequence `c1, c2−c1, …, cn−c(n−1)`, generalized over
the previous cumulative count. -/
def deltas : Int → List Int → List Int
  | _, [] => []
  | prev, c :: cs => (c - prev) :: deltas c cs

/-- Re-accumulation of per-bucket deltas into a running total. -/
def accumFrom : Int → List Int → List Int
  | _, [] => []
  | t, c :: cs => (t + c) :: accumFrom (t + c) cs

/-- The bucket-row fields carried by an emitted insert statement. -/
def stmtBucketRow : Stmt → BucketRow
  | .insertBucket _ _ _ _ c r l u =>
    { count := c, repeats := r, lower := l, upper := u }
  | _ => { count := 0, repeats := 0, lower := 0, upper := 0 }

theorem accumFrom_deltas : ∀ (cs : List Int) (a : Int),
    accumFrom a (deltas a cs) = cs := by
  intro cs
  induction cs with
  | nil => intro a; rfl
  | cons c cs ih =>
    intro a
    simp only [deltas, accumFrom]
    have h : a + (c - a) = c := by omega
    rw [h, ih]

theorem bucketInsertStmts_spec (conv : Datum → Except Err Datum)
    (tableID isIndex histID : Int) :
    ∀ (bs : List Bucket) (prev : Int) (i : Nat) (stmts : List Stmt),
    bucketInsertStmts conv tableID isIndex histID prev i bs = .ok stmts →
    stmts.map (fun st => (stmtBucketRow st).count) =
        deltas prev (bs.map (fun b => b.count)) ∧
      stmts.map (fun st => (stmtBucketRow st).repeats) =
        bs.map (fun b => b.repeats) := by
  intro bs
  induction bs with
  | nil =>
    intro prev i stmts h
    injection h with h2
    rw [← h2]
    constructor <;> rfl
  | cons b rest ih =>
    intro prev i stmts h
    unfold bucketInsertStmts at h
    cases hu : conv b.upper with
    | error e => rw [hu] at h; cases h
    | ok ub =>
      rw [hu] at h
      cases hl : conv b.lower with
      | error e => rw [hl] at h; cases h
      | ok lb =>
        rw [hl] at h
        cases hr : bucketInsertStmts conv tableID isIndex histID b.count
            (i + 1) rest with
        | error e => rw [hr] at h; cases h
        | ok rest2 =>
          rw [hr] at h
          injection h with h2
          rw [← h2]
          have h3 := ih b.count (i + 1) rest2 hr
          constructor
          · simp only [List.map_cons, deltas]
            rw [h3.1]
            rfl
          · simp only [List.map_cons]
            rw [h3.2]
            rfl

theorem histAppendLoop_spec (s : Storage) (isIndex : Int) (tp : FieldType) :
    ∀ (rows : List BucketRow) (t : Int) (hg hgOut : Histogram),
    histAppendLoop s isIndex tp t hg rows = .ok hgOut →
    hgOut.buckets.map (fun b => b.count) =
        hg.buckets.map (fun b => b.count) ++
          accumFrom t (rows.map (fun r => r.count)) ∧
      hgOut.buckets.map (fun b => b.repeats) =
        hg.buckets.map (fun b => b.repeats) ++
          rows.map (fun r => r.repeats) := by
  intro rows
  induction rows with
  | nil =>
    intro t hg hgOut h
    injection h with h2
    rw [← h2]
    constructor <;> simp [accumFrom]
  | cons r rs ih =>
    intro t hg hgOut h
    unfold histAppendLoop at h
    by_cases hidx : isIndex = 1
    · rw [if_pos hidx] at h
      have h3 := ih (t + r.count)
        (hg.append r.lower r.upper (t + r.count) r.repeats) hgOut h
      constructor
      · rw [h3.1]
        simp [Histogram.append, accumFrom, List.append_assoc]
      · rw [h3.2]
        simp [Histogram.append, List.append_assoc]
    · rw [if_neg hidx] at h
      cases hcl : s.rconv tp r.lower with
      | error e => rw [hcl] at h; cases h
      | ok lb =>
        rw [hcl] at h
        cases hcu : s.rconv tp r.upper with
        | error e => rw [hcu] at h; cases h
        | ok ub =>
          rw [hcu] at h
          have h3 := ih (t + r.count)
            (hg.append lb ub (t + r.count) r.repeats) hgOut h
          constructor
          · rw [h3.1]
            simp [Histogram.append, accumFrom, List.append_assoc]
          · rw [h3.2]
            simp [Histogram.append, List.append_assoc]

/-- C4: bucket delta round-trip — `SaveStatsToStorage`'s bucket inserts carry
the per-bucket deltas `c1, c2−c1, …, cn−c(n−1)` of the histogram's
cumulative counts, and `histogramFromStorage`, reading those rows back,
re-accumulates a running total, reproducing exactly the original cumulative
sequence with the same repeat counts. -/
theorem save_reload_bucket_roundtrip
    (conv : Datum → Except Err Datum) (tid isIdx hid : Int) (hg : Histogram)
    (stmts : List Stmt) (s : Storage) (qt qi qc : Int) (tp : FieldType)
    (distinct : Int) (ver : Nat) (nc tcs : Int) (corr : Corr)
    (hg2 : Histogram)
    (hsave : bucketInsertStmts conv tid isIdx hid 0 0 hg.buckets = .ok stmts)
    (hread : s.bucketQ qt qi qc = .ok (stmts.map stmtBucketRow))
    (hload : histogramFromStorage s qt qc tp distinct qi ver nc tcs corr =
      .ok hg2) :
    stmts.map (fun st => (stmtBucketRow st).count) =
        deltas 0 (hg.buckets.map (fun b => b.count)) ∧
      hg2.buckets.map (fun b => b.count) =
        hg.buckets.map (fun b => b.count) ∧
      hg2.buckets.map (fun b => b.repeats) =
        hg.buckets.map (fun b => b.repeats) := by
  have hs := bucketInsertStmts_spec conv tid isIdx hid hg.buckets 0 0 stmts
    hsave
  unfold histogramFromStorage at hload
  rw [hread] at hload
  have hl := histAppendLoop_spec s qi tp (stmts.map stmtBucketRow) 0 _ hg2
    hload
  have hs1 : List.map (fun r => r.count) (List.map stmtBucketRow stmts) =
      deltas 0 (hg.buckets.map (fun b => b.count)) := by
    rw [List.map_map]
    exact hs.1
  have hs2 : List.map (fun r => r.repeats) (List.map stmtBucketRow stmts) =
      hg.buckets.map (fun b => b.repeats) := by
    rw [List.map_map]
    exact hs.2
  refine ⟨hs.1, ?_, ?_⟩
  · rw [hl.1]
    simp only [NewHistogram, List.map_nil, List.nil_append]
    rw [hs1, accumFrom_deltas]
  · rw [hl.2]
    simp only [NewHistogram, List.map_nil, List.nil_append]
    rw [hs2]

/-- Scenario S3: a histogram with cumulative counts `[10, 25, 40]` and
repeats `[1, 2, 3]`. -/
def hgS3 : Histogram :=
  { id := 2, ndv := 3, nullCount := 0, lastUpdateVersion := 5, tp := 0,
    buckets := [{ count := 10, repeats := 1, lower := 0, upper := 0 },
                { count := 25, repeats := 2, lower := 0, upper := 1 },
                { count := 40, repeats := 3, lower := 1, upper := 2 }],
    totColSize := 0, correlation := 0 }

def convId : Datum → Except Err Datum := fun d => .ok d

/-- The bucket inserts emitted for `hgS3`: delta counts `[10, 15, 15]`. -/
def stmtsS3 : List Stmt :=
  [.insertBucket 1 0 2 0 10 1 0 0,
   .insertBucket 1 0 2 1 15 2 0 1,
   .insertBucket 1 0 2 2 15 3 1 2]

def storS3 : Storage :=
  { histQ := fun _ => .ok [],
    bucketQ := fun _ _ _ => .ok (stmtsS3.map stmtBucketRow),
    sumQ := fun _ _ => .ok none, cmQ := fun _ _ _ => .ok [],
    decode := fun b => .ok b, rconv := fun _ d => .ok d }

def hgS3Reloaded : Histogram :=
  { id := 2, ndv := 3, nullCount := 0, lastUpdateVersion := 5, tp := 0,
    buckets := [{ count := 10, repeats := 1, lower := 0, upper := 0 },
                { count := 25, repeats := 2, lower := 0, upper := 1 },
                { count := 40, repeats := 3, lower := 1, upper := 2 }],
    totColSize := 0, correlation := 0 }

/-- Witness for C4 on scenario S3. -/
theorem save_reload_bucket_roundtrip_witness :
    (bucketInsertStmts convId 1 0 2 0 0 hgS3.buckets = .ok stmtsS3 ∧
     storS3.bucketQ 1 0 2 = .ok (stmtsS3.map stmtBucketRow) ∧
     histogramFromStorage storS3 1 2 0 3 0 5 0 0 0 = .ok hgS3Reloaded) ∧
    (stmtsS3.map (fun st => (stmtBucketRow st).count) =
        deltas 0 (hgS3.buckets.map (fun b => b.count)) ∧
      hgS3Reloaded.buckets.map (fun b => b.count) =
        hgS3.buckets.map (fun b => b.count) ∧
      hgS3Reloaded.buckets.map (fun b => b.repeats) =
        hgS3.buckets.map (fun b => b.repeats)) :=
  ⟨⟨rfl, rfl, rfl⟩,
   save_reload_bucket_roundtrip convId 1 0 2 hgS3 stmtsS3 storS3 1 0 2 0 3 5
     0 0 0 hgS3Reloaded rfl rfl rfl⟩

/-- The first error of the save path before the commit/rollback decision:
either a statement-building failure (start-TS read, sketch encoding, bound
conversion) or the first SQL execution failure. -/
def savePreErr (oracle : Stmt → Option Err) (txnTS : Except Err Nat)
    (enc : Except Err Bytes) (conv : Datum → Except Err Datum)
    (tableID count : Int) (isIndex : Int) (hg : Histogram) : Option Err :=
  match buildSaveSqls txnTS enc conv tableID count isIndex hg with
  | .error e => some e
  | .ok sqls => (execSQLs oracle sqls).2

/-- C7 amended: for every call to `SaveStatsToStorage` in which the initial
`begin` succeeds, the transaction is ended on the deferred exit path — the
last executed statement is `commit` exactly when no step failed, and
`rollback` when any step failed (start-TS read, sketch encoding, bound
conversion, or any SQL statement); on failure the original error, not any
rollback error, is returned. -/
theorem save_deferred_commit_rollback (oracle : Stmt → Option Err)
    (txnTS : Except Err Nat) (enc : Except Err Bytes)
    (conv : Datum → Except Err Datum) (tableID count : Int) (isIndex : Int)
    (hg : Histogram) (hb : oracle Stmt.begin = none) :
    ((savePreErr oracle txnTS enc conv tableID count isIndex hg = none →
       (SaveStatsToStorage oracle txnTS enc conv tableID count isIndex
           hg).1.getLast? = some Stmt.commit ∧
       (SaveStatsToStorage oracle txnTS enc conv tableID count isIndex
           hg).2 = oracle Stmt.commit) ∧
     (∀ e, savePreErr oracle txnTS enc conv tableID count isIndex hg =
         some e →
       (SaveStatsToStorage oracle txnTS enc conv tableID count isIndex
           hg).1.getLast? = some Stmt.rollback ∧
       (SaveStatsToStorage oracle txnTS enc conv tableID count isIndex
           hg).2 = some e)) := by
  unfold SaveStatsToStorage savePreErr
  rw [hb]
  cases hbld : buildSaveSqls txnTS enc conv tableID count isIndex hg with
  | error e =>
    constructor
    · intro hnone
      exact Option.noConfusion hnone
    · intro e2 hsome
      injection hsome with he
      rw [← he]
      exact ⟨rfl, rfl⟩
  | ok sqls =>
    dsimp only
    rcases hexp : execSQLs oracle sqls with ⟨log, r⟩
    cases r with
    | none =>
      constructor
      · intro _
        constructor
        · show ((Stmt.begin :: log) ++ [Stmt.commit]).getLast? =
            some Stmt.commit
          exact List.getLast?_concat _
        · rfl
      · intro e2 hsome
        have h4 : (none : Option Err) = some e2 := hsome
        exact Option.noConfusion h4
    | some e =>
      constructor
      · intro hnone
        have h4 : (some e : Option Err) = none := hnone
        exact Option.noConfusion h4
      · intro e2 hsome
        have h4 : (some e : Option Err) = some e2 := hsome
        injection h4 with he
        rw [← he]
        constructor
        · show ((Stmt.begin :: log) ++ [Stmt.rollback]).getLast? =
            some Stmt.rollback
          exact List.getLast?_concat _
        · rfl

/-- An executor that fails the initial `begin` statement. -/
def oracleBeginFail : Stmt → Option Err := fun st =>
  match st with
  | .begin => some 9
  | _ => none

def hgEmpty : Histogram := NewHistogram 1 0 0 0 0 0 0

/-- C7 counterexample: when the `begin` statement itself fails, the function
returns before installing the deferred handler — the error is reported but
neither COMMIT nor ROLLBACK is executed, refuting the claim that every call
ends the transaction on the deferred exit path. -/
theorem save_begin_failure_no_rollback :
    (SaveStatsToStorage oracleBeginFail (.ok 1) (.ok 0) convId 1 0 0
        hgEmpty) = ([Stmt.begin], some 9) ∧
    Stmt.rollback ∉ [Stmt.begin] ∧ Stmt.commit ∉ [Stmt.begin] :=
  ⟨rfl, by decide, by decide⟩

/-- An executor that never fails. -/
def oracleOk : Stmt → Option Err := fun _ => none

/-- Witness for the amended C7 on an all-success call. -/
theorem save_deferred_commit_rollback_witness :
    oracleOk Stmt.begin = none ∧
    ((savePreErr oracleOk (.ok 1) (.ok 0) convId 1 0 0 hgEmpty = none →
       (SaveStatsToStorage oracleOk (.ok 1) (.ok 0) convId 1 0 0
           hgEmpty).1.getLast? = some Stmt.commit ∧
       (SaveStatsToStorage oracleOk (.ok 1) (.ok 0) convId 1 0 0
           hgEmpty).2 = oracleOk Stmt.commit) ∧
     (∀ e, savePreErr oracleOk (.ok 1) (.ok 0) convId 1 0 0 hgEmpty =
         some e →
       (SaveStatsToStorage oracleOk (.ok 1) (.ok 0) convId 1 0 0
           hgEmpty).1.getLast? = some Stmt.rollback ∧
       (SaveStatsToStorage oracleOk (.ok 1) (.ok 0) convId 1 0 0
           hgEmpty).2 = some e)) :=
  ⟨rfl, save_deferred_commit_rollback oracleOk (.ok 1) (.ok 0) convId 1 0 0
      hgEmpty rfl⟩

/-- The fully-bucketed column installed by the on-demand loader (the record
built at the end of `loadStep`). -/
def promotedColumn (tid : Int) (c : Column) (hg : Histogram)
    (cms : Option CMSketch) : Column :=
  { physicalID := tid, hist := hg, info := c.info, cms := cms,
    count := hg.totalRowCount, isHandle := c.isHandle }

/-- The cloned table carrying the promoted column. -/
def promotedTable (tid : Int) (tbl : Table) (c : Column) (hg : Histogram)
    (cms : Option CMSketch) : Table :=
  { tbl with
    columns := tbl.columns.insert c.hist.id (promotedColumn tid c hg cms) }

/-- C5: lazy-load gating.  (i) The summary-only path is taken exactly when
`lease > 0`, the column is not the clustered handle, the column has no
existing buckets (no cached entry, or an empty cached entry with
`LastUpdateVersion < histVer`), and `loadAll` is false.  (ii) In that case
the installed ColumnStats has an empty histogram and
`Count = SUM(stored bucket counts) + nullCount`, with SQL NULL read as zero.
(iii) A later `LoadNeededHistograms` call for that column installs a
fully-bucketed ColumnStats with `Count = totalRowCount(histogram)`. -/
theorem column_lazy_load_gating :
    (∀ (lease : Nat) (isHandle : Bool) (col : Option Column) (histVer : Nat)
       (loadAll : Bool),
       notNeedLoad lease isHandle col histVer loadAll = true ↔
         (0 < lease ∧ isHandle = false ∧
          (col = none ∨ ∃ c, col = some c ∧ c.len = 0 ∧
            c.lastUpdateVersion < histVer) ∧
          loadAll = false)) ∧
    (∀ (lease : Nat) (s : Storage) (row : HistRow) (table : Table)
       (tableInfo : TableInfo) (loadAll : Bool) (colInfo : ColumnInfo)
       (t2 : Table),
       tableInfo.columns.find? (fun ci => ci.id == row.hist_id) =
           some colInfo →
       notNeedLoad lease (tableInfo.pkIsHandle && colInfo.priKeyFlag)
           (table.columns row.hist_id) row.version loadAll = true →
       columnStatsFromStorage lease s row table tableInfo loadAll = .ok t2 →
       ∃ c cnt, columnCountFromStorage s table.physicalID row.hist_id =
           .ok cnt ∧
         t2.columns row.hist_id = some c ∧ c.hist.buckets = [] ∧
         c.count = cnt + row.null_count ∧
         (s.sumQ table.physicalID row.hist_id = .ok none → cnt = 0) ∧
         (∀ v, s.sumQ table.physicalID row.hist_id = .ok (some v) →
           cnt = v)) ∧
    (∀ (s : Storage) (st : LoaderState) (tid cid : Int) (tbl : Table)
       (c : Column) (hg : Histogram) (cms : Option CMSketch)
       (rest : List (Int × Int)),
       st.cache.tables tid = some tbl → tbl.physicalID = tid →
       tbl.columns cid = some c → c.hist.buckets = [] → c.hist.id = cid →
       histogramFromStorage s tid c.hist.id c.info.fieldType c.hist.ndv 0
           c.lastUpdateVersion c.hist.nullCount c.hist.totColSize
           c.hist.correlation = .ok hg →
       cmSketchFromStorage s tid 0 cid = .ok cms →
       ∃ st2, LoadNeededHistograms s st ((tid, cid) :: rest) =
           LoadNeededHistograms s st2 rest ∧
         ∃ tbl2 c2, st2.cache.tables tid = some tbl2 ∧
           tbl2.columns cid = some c2 ∧ c2.hist = hg ∧
           c2.count = hg.totalRowCount) := by
  refine ⟨?_, ?_, ?_⟩
  · intro lease isHandle col histVer loadAll
    cases col with
    | none =>
      simp [notNeedLoad]
      tauto
    | some c =>
      simp [notNeedLoad]
      tauto
  · intro lease s row table tableInfo loadAll colInfo t2 hfind hgate h
    unfold columnStatsFromStorage columnStatsDecide at h
    dsimp only at h
    rw [hfind] at h
    dsimp only at h
    rw [if_pos hgate] at h
    cases hcnt : columnCountFromStorage s table.physicalID row.hist_id with
    | error e =>
      rw [hcnt] at h
      cases h
    | ok cnt =>
      rw [hcnt] at h
      injection h with h3
      refine ⟨{ physicalID := table.physicalID,
                hist := { NewHistogram row.hist_id row.distinct_count
                            row.null_count row.version colInfo.fieldType 0
                            row.tot_col_size with
                          correlation := row.correlation },
                info := colInfo, cms := none,
                count := cnt + row.null_count,
                isHandle := tableInfo.pkIsHandle && colInfo.priKeyFlag },
              cnt, rfl, ?_, rfl, rfl, ?_, ?_⟩
      · rw [← h3]
        simp [IMap.insert, NewHistogram]
      · intro hnull
        unfold columnCountFromStorage at hcnt
        rw [hnull] at hcnt
        injection hcnt with h4
        exact h4.symm
      · intro v hv
        unfold columnCountFromStorage at hcnt
        rw [hv] at hcnt
        injection hcnt with h4
        exact h4.symm
  · intro s st tid cid tbl c hg cms rest h1 h2 h3 h4 h5 h6 h7
    have hlen : c.len = 0 := by simp [Column.len, h4]
    have hstep : loadStep s st (tid, cid) = .ok
        { cache := updateStatsCache st.cache (st.cache.update
            [promotedTable tid tbl c hg cms] [] st.cache.version),
          needed := neededDelete (tid, cid) st.needed } := by
      unfold loadStep promotedTable promotedColumn
      dsimp only
      rw [h1]
      dsimp only
      rw [h3]
      dsimp only
      rw [if_neg (by omega)]
      rw [h6]
      dsimp only
      rw [h7]
    refine ⟨{ cache := updateStatsCache st.cache
                (st.cache.update [promotedTable tid tbl c hg cms] []
                  st.cache.version),
              needed := neededDelete (tid, cid) st.needed }, ?_, ?_⟩
    · have e1 : LoadNeededHistograms s st ((tid, cid) :: rest) =
          (match loadStep s st (tid, cid) with
           | .error e => Except.error e
           | .ok st2 => LoadNeededHistograms s st2 rest) := rfl
      rw [e1, hstep]
    · refine ⟨promotedTable tid tbl c hg cms, promotedColumn tid c hg cms,
        ?_, ?_, rfl, rfl⟩
      · unfold updateStatsCache
        rw [if_pos (show st.cache.version ≤
            (st.cache.update [promotedTable tid tbl c hg cms] []
              st.cache.version).version from Nat.le_refl _)]
        simp [statsCache.update, statsCache.copy, IMap.insert, promotedTable,
          h2]
      · simp [promotedTable, IMap.insert, h5]

def ciOne : ColumnInfo := { id := 1, fieldType := 0, priKeyFlag := false }

def rowLazy : HistRow :=
  { is_index := 0, hist_id := 1, distinct_count := 0, version := 10,
    null_count := 2, tot_col_size := 0, correlation := 0 }

/-- Storage where the bucket-count SUM is 8 and there are no bucket rows. -/
def storLazy : Storage :=
  { histQ := fun _ => .ok [], bucketQ := fun _ _ _ => .ok [],
    sumQ := fun _ _ => .ok (some 8), cmQ := fun _ _ _ => .ok [],
    decode := fun b => .ok b, rconv := fun _ d => .ok d }

/-- The summary-only column installed by the lazy path for `rowLazy`:
empty histogram, `count = 8 + 2`. -/
def colLazy : Column :=
  { physicalID := 5,
    hist := { id := 1, ndv := 0, nullCount := 2, lastUpdateVersion := 10,
              tp := 0, buckets := [], totColSize := 0, correlation := 0 },
    info := ciOne, cms := none, count := 10, isHandle := false }

def t2Lazy : Table := { tableFive with columns := IMap.empty.insert 1 colLazy }

/-- Storage for the promotion step: one bucket row of count 4. -/
def storProm : Storage :=
  { histQ := fun _ => .ok [],
    bucketQ := fun _ _ _ =>
      .ok [{ count := 4, repeats := 1, lower := 0, upper := 0 }],
    sumQ := fun _ _ => .ok none, cmQ := fun _ _ _ => .ok [],
    decode := fun b => .ok b, rconv := fun _ d => .ok d }

def hgProm : Histogram :=
  { id := 1, ndv := 0, nullCount := 2, lastUpdateVersion := 10, tp := 0,
    buckets := [{ count := 4, repeats := 1, lower := 0, upper := 0 }],
    totColSize := 0, correlation := 0 }

def stProm : LoaderState :=
  { cache := { tables := IMap.empty.insert 5 t2Lazy, version := 20 },
    needed := [(5, 1)] }

/-- Witness for C5 at concrete inputs: the gating iff, a concrete lazy load
(`count = 8 + 2`), and its later promotion with
`count = totalRowCount`. -/
theorem column_lazy_load_gating_witness :
    (notNeedLoad 1 false none 0 false = true ↔
      (0 < 1 ∧ false = false ∧
       ((none : Option Column) = none ∨ ∃ c, (none : Option Column) = some c ∧
         c.len = 0 ∧ c.lastUpdateVersion < 0) ∧
       false = false)) ∧
    (tiFive.columns.find? (fun ci => ci.id == rowLazy.hist_id) =
        some ciOne ∧
     notNeedLoad 1 (tiFive.pkIsHandle && ciOne.priKeyFlag)
        (tableFive.columns rowLazy.hist_id) rowLazy.version false = true ∧
     columnStatsFromStorage 1 storLazy rowLazy tableFive tiFive false =
        .ok t2Lazy ∧
     (∃ c cnt, columnCountFromStorage storLazy tableFive.physicalID
          rowLazy.hist_id = .ok cnt ∧
        t2Lazy.columns rowLazy.hist_id = some c ∧ c.hist.buckets = [] ∧
        c.count = cnt + rowLazy.null_count ∧
        (storLazy.sumQ tableFive.physicalID rowLazy.hist_id = .ok none →
          cnt = 0) ∧
        (∀ v, storLazy.sumQ tableFive.physicalID rowLazy.hist_id =
            .ok (some v) → cnt = v))) ∧
    (stProm.cache.tables 5 = some t2Lazy ∧
     ∃ st2, LoadNeededHistograms storProm stProm ((5, 1) :: []) =
         LoadNeededHistograms storProm st2 [] ∧
       ∃ tbl2 c2, st2.cache.tables 5 = some tbl2 ∧
         tbl2.columns 1 = some c2 ∧ c2.hist = hgProm ∧
         c2.count = hgProm.totalRowCount) :=
  ⟨column_lazy_load_gating.1 1 false none 0 false,
   ⟨rfl, rfl, rfl,
    column_lazy_load_gating.2.1 1 storLazy rowLazy tableFive tiFive false
      ciOne t2Lazy rfl rfl rfl⟩,
   ⟨rfl,
    column_lazy_load_gating.2.2 storProm stProm 5 1 t2Lazy colLazy hgProm
      none [] rfl rfl rfl rfl rfl rfl rfl⟩⟩

end StatsHandle
